import Mathlib

/-!
Verification of the `ollama` Python client (`src/ollama/_client.py`) against its
natural-language specification.  Every definition below is a shallow embedding
of the corresponding Python code: bytes are `Nat`s (values 0–255), byte strings
are `List Nat`, the filesystem is an explicit association list, and the HTTP
server is modelled by the status codes it would answer with.  The synchronous
`Client` and the `AsyncClient` contain literally identical logic (the async
variant only differs in where suspension occurs), so one embedding covers both.
-/

set_option autoImplicit false

namespace Ollama

/-! ### SHA-256 (model of `hashlib.sha256`)

The Python code delegates hashing to `hashlib`.  We embed a full executable
SHA-256 over byte lists, and model the incremental `update` interface the code
uses: `hashlib`'s documented contract is that feeding chunks incrementally is
equivalent to hashing their concatenation, so the accumulator state is the
concatenation of all bytes fed so far and `hexdigest` hashes it. -/

def w32 (x : Nat) : Nat := x % 4294967296

def rotr (n x : Nat) : Nat := w32 (x / 2 ^ n + x % 2 ^ n * 2 ^ (32 - n))

def bigSigma0 (x : Nat) : Nat := rotr 2 x ^^^ rotr 13 x ^^^ rotr 22 x

def bigSigma1 (x : Nat) : Nat := rotr 6 x ^^^ rotr 11 x ^^^ rotr 25 x

def smallSigma0 (x : Nat) : Nat := rotr 7 x ^^^ rotr 18 x ^^^ x / 2 ^ 3

def smallSigma1 (x : Nat) : Nat := rotr 17 x ^^^ rotr 19 x ^^^ x / 2 ^ 10

def chF (x y z : Nat) : Nat := (x &&& y) ^^^ ((4294967295 - x) &&& z)

def majF (x y z : Nat) : Nat := (x &&& y) ^^^ (x &&& z) ^^^ (y &&& z)

def shaK : List Nat :=
  [1116352408, 1899447441, 3049323471, 3921009573, 961987163,
   1508970993, 2453635748, 2870763221, 3624381080, 310598401,
   607225278, 1426881987, 1925078388, 2162078206, 2614888103,
   3248222580, 3835390401, 4022224774, 264347078, 604807628,
   770255983, 1249150122, 1555081692, 1996064986, 2554220882,
   2821834349, 2952996808, 3210313671, 3336571891, 3584528711,
   113926993, 338241895, 666307205, 773529912, 1294757372,
   1396182291, 1695183700, 1986661051, 2177026350, 2456956037,
   2730485921, 2820302411, 3259730800, 3345764771, 3516065817,
   3600352804, 4094571909, 275423344, 430227734, 506948616,
   659060556, 883997877, 958139571, 1322822218, 1537002063,
   1747873779, 1955562222, 2024104815, 2227730452, 2361852424,
   2428436474, 2756734187, 3204031479, 3329325298]

def shaH0 : List Nat :=
  [1779033703, 3144134277, 1013904242, 2773480762,
   1359893119, 2600822924, 528734635, 1541459225]

/-- Big-endian byte encoding of `v` in `n` bytes. -/
def beBytes : Nat → Nat → List Nat
  | 0, _ => []
  | n + 1, v => beBytes n (v / 256) ++ [v % 256]

/-- SHA-256 padding: append 0x80, zeros to 56 mod 64, then the 64-bit bit length. -/
def shaPad (bs : List Nat) : List Nat :=
  bs ++ [128] ++ List.replicate ((119 - bs.length % 64) % 64) 0 ++ beBytes 8 (8 * bs.length)

/-- Group bytes 4 at a time into big-endian 32-bit words. -/
def bytesToWords : List Nat → List Nat
  | a :: b :: c :: d :: rest => (((a * 256 + b) * 256 + c) * 256 + d) :: bytesToWords rest
  | _ => []

/-- Extend the 16 message words to 64 by the SHA-256 schedule recurrence. -/
def extendSchedule : Nat → List Nat → List Nat
  | 0, w => w
  | n + 1, w =>
    let l := w.length
    extendSchedule n (w ++ [w32 (smallSigma1 (w.getD (l - 2) 0) + w.getD (l - 7) 0 +
      smallSigma0 (w.getD (l - 15) 0) + w.getD (l - 16) 0)])

/-- One round of the SHA-256 compression function on state `[a,b,c,d,e,f,g,h]`. -/
def compressStep (st : List Nat) (kw : Nat × Nat) : List Nat :=
  match st with
  | [a, b, c, d, e, f, g, h] =>
    let t1 := w32 (h + bigSigma1 e + chF e f g + kw.1 + kw.2)
    let t2 := w32 (bigSigma0 a + majF a b c)
    [w32 (t1 + t2), a, b, c, w32 (d + t1), e, f, g]
  | _ => st

/-- Process one 64-byte block into the running hash state. -/
def compressBlock (h : List Nat) (block : List Nat) : List Nat :=
  let st := ((shaK.zip (extendSchedule 48 (bytesToWords block)))).foldl compressStep h
  (h.zip st).map fun p => w32 (p.1 + p.2)

/-- Structural worker for `readChunks`; the fuel only bounds recursion depth and
is set to the list length, which each step strictly decreases. -/
def readChunksAux (size : Nat) : Nat → List Nat → List (List Nat)
  | 0, _ => []
  | _, [] => []
  | fuel + 1, a :: l =>
    if size = 0 then []
    else (a :: l).take size :: readChunksAux size fuel ((a :: l).drop size)

/-- Model of `file.read(size)` looping until EOF: the sequence of chunks the read
loop sees.  A read of size 0 returns an empty chunk, which the loop treats as
EOF, so `readChunks 0 _ = []`, exactly as the Python loop would behave. -/
def readChunks (size : Nat) (bs : List Nat) : List (List Nat) :=
  readChunksAux size bs.length bs

def sha256Words (bs : List Nat) : List Nat :=
  (readChunks 64 (shaPad bs)).foldl compressBlock shaH0

def hexChar (n : Nat) : Char := "0123456789abcdef".toList.getD n '0'

def byteHex (b : Nat) : String := String.mk [hexChar (b / 16), hexChar (b % 16)]

/-- Lowercase hex SHA-256 digest of a byte list (model of `sha256(bs).hexdigest()`). -/
def sha256Hex (bs : List Nat) : String :=
  String.join ((sha256Words bs).map fun w => String.join ((beBytes 4 w).map byteHex))

/-- Incremental-hash accumulator state: the bytes fed so far (`hashlib`
guarantees `update` is concatenation-compatible). -/
def shaUpdate (st chunk : List Nat) : List Nat := st ++ chunk

def shaHexdigest (st : List Nat) : String := sha256Hex st

/-- Model of the digest computation in `Client._create_blob`: stream the file in
32 KiB chunks through the hash accumulator, then format `sha256:<hex>`. -/
def createBlobDigest (content : List Nat) : String :=
  "sha256:" ++ shaHexdigest ((readChunks 32768 content).foldl shaUpdate [])

/-! ### Stream decoder (model of `Client._stream` / `AsyncClient._stream`)

The response body is newline-delimited JSON; the protocol guarantees one
complete JSON object per line, so we model a decoded line as a string-valued
association map (the only field the decoder inspects is `error`).  Python
truthiness of `partial.get('error')` means: the key is present with a
non-empty value. -/

/-- A decoded JSON object from one line of a streaming response. -/
abbrev StreamObj := List (String × String)

/-- The value of `partial.get('error')` when it is truthy, `none` otherwise. -/
def errVal (o : StreamObj) : Option String :=
  match o.lookup "error" with
  | some s => if s = "" then none else some s
  | none => none

/-- Outcome of consuming the whole lazy sequence: the objects yielded to the
iterating caller, and — when a line carried an error — the raised message. -/
inductive StreamOut where
  | ok (msgs : List StreamObj)
  | err (msgs : List StreamObj) (e : String)
deriving DecidableEq

/-- Model of the generator loop in `_stream`: decode each line in order, raise
as soon as a decoded object has a truthy `error` field, otherwise yield it. -/
def streamJson : List StreamObj → StreamOut
  | [] => .ok []
  | o :: rest =>
    match errVal o with
    | some e => .err [] e
    | none =>
      match streamJson rest with
      | .ok ms => .ok (o :: ms)
      | .err ms e => .err (o :: ms) e

/-! ### Transport and blob upload (models of `Client._request` / `Client._create_blob`)

`_request` calls `response.raise_for_status()`, which raises `HTTPStatusError`
for every status outside 200–299.  `_create_blob`'s network behaviour depends
only on the statuses the server answers, so those are parameters. -/

def is2xx (s : Nat) : Bool := 200 ≤ s && s ≤ 299

/-- Model of `httpx.Response.raise_for_status` (as used via `_request`):
a non-2xx status raises, carrying the status code. -/
def raiseForStatus (s : Nat) : Except Nat Nat :=
  if is2xx s then .ok s else .error s

/-- Model of `Client.delete`: issue the request, raise on non-2xx, then report
`success` exactly for status 200 and `error` for any other 2xx status. -/
def deleteModel (s : Nat) : Except Nat (List (String × String)) :=
  (raiseForStatus s).map fun st => [("status", if st = 200 then "success" else "error")]

/-- Model of `Client.copy`: identical result shape to `delete`. -/
def copyModel (s : Nat) : Except Nat (List (String × String)) :=
  (raiseForStatus s).map fun st => [("status", if st = 200 then "success" else "error")]

/-- Observable trace of one `_create_blob` call: the HEAD requests issued, the
PUT requests issued (with the uploaded bytes), and the outcome (a digest, or a
propagated HTTP status error). -/
structure BlobTrace where
  headUrls : List String
  putReqs : List (String × List Nat)
  result : Except Nat String

/-- Model of `Client._create_blob`: hash the file in 32 KiB chunks, probe
`HEAD /api/blobs/<digest>`, and upload the file bytes with PUT only when the
probe raised with status 404; any other probe failure is re-raised.  The PUT
itself also goes through `raise_for_status`.  (`AsyncClient._create_blob` is
the same logic; its PUT streams the file in 32 KiB chunks, which by
`readChunks_foldl` carries the same bytes.) -/
def createBlob (content : List Nat) (headStatus putStatus : Nat) : BlobTrace :=
  let digest := createBlobDigest content
  let url := "/api/blobs/" ++ digest
  if is2xx headStatus then ⟨[url], [], .ok digest⟩
  else if headStatus ≠ 404 then ⟨[url], [], .error headStatus⟩
  else if is2xx putStatus then ⟨[url], [(url, content)], .ok digest⟩
  else ⟨[url], [(url, content)], .error putStatus⟩

/-! ### Image encoding (model of `_encode_image`, `_as_path`, `_as_bytesio`)

`_as_path` accepts `str` and `Path` values; `_as_bytesio` accepts `BytesIO`
objects and raw `bytes`.  The duck-typed argument is a tagged union.  Reading a
path consults the filesystem, modelled as a partial map from path strings to
byte contents.  After encoding, the result is a `str` — which, fed back to this
code, is path-shaped, so encoded values are stored with the `path` tag. -/

inductive ImageRef where
  | path (p : String)
  | raw (bs : List Nat)
  | buffer (bs : List Nat)
  | other
deriving DecidableEq

def b64Char (n : Nat) : Char :=
  "ABCDEFGHIJKLMNOPQRSTUVWXYZabcdefghijklmnopqrstuvwxyz0123456789+/".toList.getD n 'A'

/-- Model of `base64.b64encode(bs).decode('utf-8')`. -/
def b64encode : List Nat → String
  | [] => ""
  | [a] => String.mk [b64Char (a / 4), b64Char (a % 4 * 16)] ++ "=="
  | [a, b] =>
    String.mk [b64Char (a / 4), b64Char (a % 4 * 16 + b / 16), b64Char (b % 16 * 4)] ++ "="
  | a :: b :: c :: rest =>
    String.mk [b64Char (a / 4), b64Char (a % 4 * 16 + b / 16),
      b64Char (b % 16 * 4 + c / 64), b64Char (c % 64)] ++ b64encode rest

/-- Model of `_encode_image`: a path is read from the filesystem (a missing file
raises the file error), raw bytes and buffers are read directly, and any other
shape raises the input error. -/
def encodeImage (fs : String → Option (List Nat)) : ImageRef → Except String String
  | .path p =>
    match fs p with
    | some bs => .ok (b64encode bs)
    | none => .error "No such file or directory"
  | .raw bs => .ok (b64encode bs)
  | .buffer bs => .ok (b64encode bs)
  | .other => .error "images must be a list of bytes, path-like objects, or file-like objects"

/-! ### Chat and generate (models of `Client.chat` / `Client.generate`)

A caller-supplied message is a Python dict read through `.get`, so each field
is optional; Python truthiness makes `None` and empty values falsy.  `chat`
mutates the supplied dicts in place (`message['images'] = [...]`), so the model
returns the post-call state of the caller's list alongside the request count. -/

structure Message where
  role : Option String
  content : Option String
  images : Option (List ImageRef)
deriving DecidableEq

/-- Truthiness of an optional string: `None` and `""` are falsy. -/
def truthyStr : Option String → Option String
  | some s => if s = "" then none else some s
  | none => none

/-- Truthiness of an optional list: `None` and `[]` are falsy. -/
def truthyList {α : Type} : Option (List α) → Option (List α)
  | some [] => none
  | some (a :: l) => some (a :: l)
  | none => none

def roles : List String := ["system", "user", "assistant"]

/-- Whether a message passes the role and content checks of `chat`: a truthy
role among the recognized roles and truthy content. -/
def validRC (m : Message) : Bool :=
  (match truthyStr m.role with
   | some r => decide (r ∈ roles)
   | none => false) &&
  (truthyStr m.content).isSome

/-- One iteration of the validation loop in `chat`: check role, check content,
then encode any images and store them back into the message. -/
def normMsg (fs : String → Option (List Nat)) (m : Message) : Except String Message :=
  match truthyStr m.role with
  | none =>
    .error "messages must contain a role and it must be one of \"system\", \"user\", or \"assistant\""
  | some r =>
    if r ∈ roles then
      match truthyStr m.content with
      | none => .error "messages must contain content"
      | some _ =>
        match truthyList m.images with
        | none => .ok m
        | some imgs =>
          match imgs.mapM (encodeImage fs) with
          | .ok enc => .ok { m with images := some (enc.map ImageRef.path) }
          | .error e => .error e
    else
      .error "messages must contain a role and it must be one of \"system\", \"user\", or \"assistant\""

/-- The whole validation loop: returns the post-call state of the caller's
message list (normalization mutates messages in place; a message on which
validation fails is left untouched, as are all messages after it) and the
first error, if any. -/
def normalizeLoop (fs : String → Option (List Nat)) :
    List Message → List Message × Option String
  | [] => ([], none)
  | m :: rest =>
    match normMsg fs m with
    | .error e => (m :: rest, some e)
    | .ok m' =>
      let (rest', e) := normalizeLoop fs rest
      (m' :: rest', e)

/-- What validation does to one accepted message: role and content are kept, a
message without (truthy) images is untouched, and a non-empty image list is
replaced in place by the base64 encodings (stored as strings). -/
def normRel (fs : String → Option (List Nat)) (m m' : Message) : Prop :=
  m'.role = m.role ∧ m'.content = m.content ∧
  (truthyList m.images = none → m' = m) ∧
  (∀ imgs, truthyList m.images = some imgs →
    ∃ enc, imgs.mapM (encodeImage fs) = .ok enc ∧
      m'.images = some (enc.map ImageRef.path))

/-- Observable trace of one `chat` call: how many HTTP requests were issued,
the message list transmitted in the request (if one was sent), the caller's
message list after the call, and the outcome. -/
structure ChatTrace where
  requests : Nat
  sent : Option (List Message)
  messagesAfter : List Message
  outcome : Except String Unit

/-- Model of `Client.chat`: reject an empty model name, then validate and
normalize the messages in order; only if every message passes is the single
POST request issued, carrying the (mutated) caller list itself. -/
def chat (fs : String → Option (List Nat)) (model : String) (messages : List Message) :
    ChatTrace :=
  if model = "" then ⟨0, none, messages, .error "must provide a model"⟩
  else
    match normalizeLoop fs messages with
    | (msgs', some e) => ⟨0, none, msgs', .error e⟩
    | (msgs', none) => ⟨1, some msgs', msgs', .ok ()⟩

/-- Observable trace of one `generate` call. -/
structure GenTrace where
  requests : Nat
  outcome : Except String Unit

/-- Model of `Client.generate`: the empty-model check runs before the request
payload (including image encoding) is even built. -/
def generate (fs : String → Option (List Nat)) (model prompt : String)
    (images : List ImageRef) : GenTrace :=
  if model = "" then ⟨0, .error "must provide a model"⟩
  else
    match images.mapM (encodeImage fs) with
    | .ok _ => ⟨1, .ok ()⟩
    | .error e => ⟨0, .error e⟩

/-! ### Modelfile parser (model of `Client._parse_modelfile`)

`for line in io.StringIO(text)` yields the lines of `text` with their trailing
newline kept; `line.partition(' ')` splits at the first space;
`print(command, args, file=out)` writes `command`, one space, `args`, and a
newline.  Paths are modelled after `pathlib.PurePosixPath`: components split on
`/` with empty and `.` components collapsed; `expanduser` expands a leading
`~`; a relative path resolves against the base directory.  The filesystem is an
association list from absolute paths to file contents; the blob upload a
rewritten line triggers is covered by `createBlob`, and here only its returned
digest matters (the claims about the parser assume the upload succeeds). -/

structure PyPath where
  absolute : Bool
  parts : List String
deriving DecidableEq

/-- Split a character list on `/`, keeping empty components (as `str.split`). -/
def splitSlashAux : List Char → List Char → List (List Char)
  | [], acc => [acc.reverse]
  | c :: rest, acc =>
    if c = '/' then acc.reverse :: splitSlashAux rest []
    else splitSlashAux rest (c :: acc)

/-- Model of `pathlib.Path(s)`: absolute iff `s` starts with `/`; empty and
single-dot components are collapsed. -/
def parsePath (s : String) : PyPath :=
  { absolute := match s.toList with | '/' :: _ => true | _ => false
    parts := ((splitSlashAux s.toList []).map String.mk).filter fun c => !(c == "" || c == ".") }

/-- Model of `Path.expanduser`: a relative path whose first component is `~` is
re-rooted at the home directory. -/
def expanduser (home p : PyPath) : PyPath :=
  match p.absolute, p.parts with
  | false, "~" :: rest => ⟨home.absolute, home.parts ++ rest⟩
  | _, _ => p

/-- Model of `base / p` for a relative `p`. -/
def joinPath (base p : PyPath) : PyPath :=
  if p.absolute then p else ⟨base.absolute, base.parts ++ p.parts⟩

/-- The path checked by `_parse_modelfile` for a `FROM`/`ADAPTER` argument:
`Path(args).expanduser()`, then resolution against `base` unless absolute. -/
def resolveArg (home base : PyPath) (args : String) : PyPath :=
  let p := expanduser home (parsePath args)
  if p.absolute then p else joinPath base p

abbrev Fs := List (PyPath × List Nat)

/-- Model of `path.exists()` plus reading the file: the content, if present. -/
def fsLookup (fs : Fs) (p : PyPath) : Option (List Nat) :=
  (fs.find? fun e => e.1 == p).map fun e => e.2

/-- The lines `io.StringIO` iteration yields: split after every newline, keep
the newline, and yield a final newline-less segment only if it is non-empty. -/
def splitLinesAux : List Char → List Char → List (List Char)
  | [], acc => if acc.isEmpty then [] else [acc.reverse]
  | c :: rest, acc =>
    if c = '\n' then (acc.reverse ++ ['\n']) :: splitLinesAux rest []
    else splitLinesAux rest (c :: acc)

def splitLinesKeep (s : String) : List String :=
  (splitLinesAux s.toList []).map String.mk

/-- Model of `line.partition(' ')` projected to the two pieces the code uses:
the text before the first space, and the text after it (`""` if no space). -/
def partAux : List Char → List Char → List Char × List Char
  | [], acc => (acc.reverse, [])
  | c :: rest, acc =>
    if c = ' ' then (acc.reverse, rest) else partAux rest (c :: acc)

def partitionSpace (line : String) : String × String :=
  let (cmd, args) := partAux line.toList []
  (String.mk cmd, String.mk args)

/-- One iteration of the `_parse_modelfile` loop: rewrite the argument of an
existing-file `FROM`/`ADAPTER` directive to `@<digest>`, then print
`command`, a space, the (possibly rewritten) argument, and a newline. -/
def parseLine (fs : Fs) (home base : PyPath) (line : String) : String :=
  let (command, args) := partitionSpace line
  let args :=
    if ["FROM", "ADAPTER"].contains (String.mk (command.toList.map Char.toUpper)) then
      match fsLookup fs (resolveArg home base args) with
      | some content => "@" ++ createBlobDigest content
      | none => args
    else args
  command ++ " " ++ args ++ "\n"

/-- Model of `Client._parse_modelfile`. -/
def parseModelfile (fs : Fs) (home base : PyPath) (modelfile : String) : String :=
  String.join ((splitLinesKeep modelfile).map (parseLine fs home base))

/-! ### Concrete fixtures used by the closed counterexample/witness theorems -/

/-- A filesystem with no readable files. -/
def fsEmpty : String → Option (List Nat) := fun _ => none

/-- A filesystem in which only `/img` exists, containing the bytes of "hi". -/
def fsImg : String → Option (List Nat) :=
  fun p => if p = "/img" then some [104, 105] else none

def home0 : PyPath := ⟨true, ["root"]⟩

def base0 : PyPath := ⟨true, ["models"]⟩

/-- A filesystem holding exactly `/models/model.bin` with content `[1, 2, 3]`. -/
def fsModel : Fs := [(⟨true, ["models", "model.bin"]⟩, [1, 2, 3])]

/-- A valid chat message carrying one raw-bytes image (the bytes of "hi"). -/
def msgImg : Message := ⟨some "user", some "hi", some [ImageRef.raw [104, 105]]⟩

end Ollama

namespace Ollama

/-- Test vector grounding the SHA-256 embedding: the digest of the empty string. -/
theorem sha256Hex_empty :
    sha256Hex [] = "e3b0c44298fc1c149afbf4c8996fb92427ae41e4649b934ca495991b7852b855" := by
  decide

/-- Test vector grounding the SHA-256 embedding: the digest of "abc". -/
theorem sha256Hex_abc :
    sha256Hex [97, 98, 99] =
      "ba7816bf8f01cfea414140de5dae2223b00361a396177a9cb410ff61f20015ad" := by
  decide

/-- Feeding the chunks of `bs` through the hash accumulator appends exactly `bs`
(the chunking loses and duplicates nothing), for any positive chunk size. -/
theorem readChunksAux_foldl (size : Nat) (hs : size ≠ 0) :
    ∀ (fuel : Nat) (bs : List Nat), bs.length ≤ fuel →
      ∀ st, (readChunksAux size fuel bs).foldl shaUpdate st = st ++ bs := by
  intro fuel
  induction fuel with
  | zero =>
    intro bs hb st
    cases bs with
    | nil => simp [readChunksAux, shaUpdate]
    | cons a l => simp at hb
  | succ n ih =>
    intro bs hb st
    cases bs with
    | nil => simp [readChunksAux]
    | cons a l =>
      simp only [readChunksAux, if_neg hs, List.foldl_cons]
      rw [ih ((a :: l).drop size)
        (by simp only [List.length_drop, List.length_cons] at hb ⊢; omega)
        (shaUpdate st ((a :: l).take size))]
      simp [shaUpdate, List.append_assoc, List.take_append_drop]

/-- Chunked feeding of the accumulator reconstructs the whole byte string. -/
theorem readChunks_foldl (size : Nat) (hs : size ≠ 0) (bs st : List Nat) :
    (readChunks size bs).foldl shaUpdate st = st ++ bs :=
  readChunksAux_foldl size hs bs.length bs le_rfl st

/-- Claim C3: the digest computed by `_create_blob` is `"sha256:"` followed by
the hex SHA-256 of exactly the file's bytes, and the streamed computation is
chunk-size-invariant: 32 KiB chunks, 1-byte chunks, and one whole-content
update all leave the same bytes in the accumulator. -/
theorem create_blob_digest_chunk_invariant (bs : List Nat) :
    createBlobDigest bs = "sha256:" ++ sha256Hex bs ∧
    (readChunks 32768 bs).foldl shaUpdate [] = (readChunks 1 bs).foldl shaUpdate [] ∧
    (readChunks 32768 bs).foldl shaUpdate [] = shaUpdate [] bs := by
  have h32 := readChunks_foldl 32768 (by decide) bs []
  have h1 := readChunks_foldl 1 (by decide) bs []
  refine ⟨?_, ?_, ?_⟩ <;>
    simp [createBlobDigest, shaHexdigest, shaUpdate, h32, h1]

/-- Claim C1: the stream decoder yields one decoded object per line in input
order; if the line at index `k` (0-based) is the first whose object carries a
non-empty `error` field, exactly the first `k` objects are yielded before the
sequence fails with that message, and lines beyond index `k` are never
consulted (decoding the truncated stream gives the same outcome). -/
theorem stream_error_truncation (lines : List StreamObj) :
    ((∀ o ∈ lines, errVal o = none) → streamJson lines = .ok lines) ∧
    (∀ k e, (∀ i, i < k → errVal (lines.getD i []) = none) →
      errVal (lines.getD k []) = some e →
      streamJson lines = .err (lines.take k) e ∧
      streamJson (lines.take (k + 1)) = streamJson lines) := by
  induction lines with
  | nil =>
    refine ⟨fun _ => rfl, fun k e _ hk => ?_⟩
    simp [List.getD, errVal] at hk
  | cons o rest ih =>
    constructor
    · intro h
      have ho : errVal o = none := h o (by simp)
      have hr : streamJson rest = .ok rest := ih.1 fun x hx => h x (by simp [hx])
      simp [streamJson, ho, hr]
    · intro k e hlt hk
      cases k with
      | zero =>
        simp only [List.getD_cons_zero] at hk
        constructor
        · simp [streamJson, hk, List.take]
        · simp [List.take, streamJson, hk]
      | succ k =>
        have ho : errVal o = none := by
          have := hlt 0 (Nat.succ_pos k)
          simpa using this
        have hrest := ih.2 k e
          (fun i hi => by simpa using hlt (i + 1) (Nat.succ_lt_succ hi))
          (by simpa using hk)
        constructor
        · simp only [streamJson, ho, hrest.1, List.take]
        · simp only [List.take, streamJson, ho, hrest.1, hrest.2, streamJson]

/-- Concrete run for claim C1: a stream whose 3rd line is `{"error": "x"}`
yields exactly the first 2 objects and fails with message `x`. -/
theorem stream_error_truncation_case :
    streamJson [[("a", "1")], [("b", "2")], [("error", "x")], [("c", "3")]] =
      .err [[("a", "1")], [("b", "2")]] "x" :=
  ((stream_error_truncation
    [[("a", "1")], [("b", "2")], [("error", "x")], [("c", "3")]]).2
    2 "x" (by decide) (by decide)).1

end Ollama

namespace Ollama

/-- Claim C2: `_create_blob` issues exactly one HEAD probe; a 2xx probe answer
returns the digest with zero PUTs; a 404 probe answer triggers exactly one PUT
of the file content (and the digest is returned once the PUT succeeds); any
other non-2xx probe status propagates unchanged with zero PUTs. -/
theorem create_blob_probe_upload (content : List Nat) (hs ps : Nat) :
    (createBlob content hs ps).headUrls = ["/api/blobs/" ++ createBlobDigest content] ∧
    (is2xx hs = true →
      (createBlob content hs ps).putReqs = [] ∧
      (createBlob content hs ps).result = .ok (createBlobDigest content)) ∧
    (hs = 404 →
      (createBlob content hs ps).putReqs =
        [("/api/blobs/" ++ createBlobDigest content, content)] ∧
      (is2xx ps = true →
        (createBlob content hs ps).result = .ok (createBlobDigest content))) ∧
    (is2xx hs = false → hs ≠ 404 →
      (createBlob content hs ps).putReqs = [] ∧
      (createBlob content hs ps).result = .error hs) := by
  refine ⟨?_, fun h2 => ?_, fun h404 => ?_, fun hn2 hn4 => ?_⟩
  · simp only [createBlob]
    split_ifs <;> rfl
  · simp [createBlob, h2]
  · subst h404
    refine ⟨?_, fun hp => ?_⟩
    · simp only [createBlob, is2xx]
      norm_num
      split <;> rfl
    · have hp' : 200 ≤ ps ∧ ps ≤ 299 := by simpa [is2xx] using hp
      simp [createBlob, is2xx, hp'.1, hp'.2]
  · simp [createBlob, hn2, hn4]

/-- Concrete runs for claim C2: a found blob uploads nothing, a 404 probe
uploads the file bytes once, and a 500 probe propagates as status 500. -/
theorem create_blob_probe_upload_case :
    (createBlob [1] 200 0).putReqs = [] ∧
    (createBlob [1] 404 201).putReqs = [("/api/blobs/" ++ createBlobDigest [1], [1])] ∧
    (createBlob [1] 500 0).result = .error 500 :=
  ⟨((create_blob_probe_upload [1] 200 0).2.1 (by decide)).1,
   ((create_blob_probe_upload [1] 404 201).2.2.1 rfl).1,
   ((create_blob_probe_upload [1] 500 0).2.2.2 (by decide) (by decide)).2⟩

/-- Claim C10: when the server answers 2xx, `delete` and `copy` return a
mapping whose `status` field is `success` exactly for status 200 and `error`
for any other 2xx status; a non-2xx status raises instead. -/
theorem delete_copy_status (s : Nat) :
    (is2xx s = true →
      deleteModel s = .ok [("status", if s = 200 then "success" else "error")] ∧
      copyModel s = .ok [("status", if s = 200 then "success" else "error")]) ∧
    (is2xx s = false →
      deleteModel s = .error s ∧ copyModel s = .error s) := by
  constructor <;> intro h <;>
    simp [deleteModel, copyModel, raiseForStatus, h, Except.map]

/-- Concrete runs for claim C10: 200 reports success, 204 reports error, and a
404 raises with the status code. -/
theorem delete_copy_status_case :
    deleteModel 200 = .ok [("status", "success")] ∧
    deleteModel 204 = .ok [("status", "error")] ∧
    copyModel 404 = .error 404 :=
  ⟨((delete_copy_status 200).1 (by decide)).1,
   ((delete_copy_status 204).1 (by decide)).1,
   ((delete_copy_status 404).2 (by decide)).2⟩

/-- Claim C7: encoding raw bytes, a byte buffer holding those bytes, and a path
whose file contains those bytes all produce the identical base64 string, and a
value of any other shape fails with the input error. -/
theorem encode_image_shapes (fs : String → Option (List Nat)) (p : String)
    (bs : List Nat) (h : fs p = some bs) :
    encodeImage fs (.path p) = .ok (b64encode bs) ∧
    encodeImage fs (.raw bs) = .ok (b64encode bs) ∧
    encodeImage fs (.buffer bs) = .ok (b64encode bs) ∧
    encodeImage fs .other =
      .error "images must be a list of bytes, path-like objects, or file-like objects" := by
  refine ⟨?_, rfl, rfl, rfl⟩
  simp [encodeImage, h]

/-- Concrete run for claim C7: the three shapes agree on the bytes of "hi". -/
theorem encode_image_shapes_case :
    encodeImage fsImg (.path "/img") = .ok "aGk=" ∧
    encodeImage fsImg (.raw [104, 105]) = .ok "aGk=" ∧
    encodeImage fsImg (.buffer [104, 105]) = .ok "aGk=" :=
  ⟨(encode_image_shapes fsImg "/img" [104, 105] (by decide)).1,
   (encode_image_shapes fsImg "/img" [104, 105] (by decide)).2.1,
   (encode_image_shapes fsImg "/img" [104, 105] (by decide)).2.2.1⟩

/-- Claim C8: `generate` with an empty model name fails with the validation
error and issues zero network requests, whatever the other arguments are. -/
theorem generate_empty_model (fs : String → Option (List Nat)) (prompt : String)
    (images : List ImageRef) :
    generate fs "" prompt images = ⟨0, .error "must provide a model"⟩ := rfl

end Ollama

namespace Ollama

/-- Unfolding equation for the validation loop on a non-empty list. -/
theorem normalizeLoop_cons (fs : String → Option (List Nat)) (m : Message)
    (rest : List Message) :
    normalizeLoop fs (m :: rest) =
      match normMsg fs m with
      | .error e => (m :: rest, some e)
      | .ok m' => (m' :: (normalizeLoop fs rest).1, (normalizeLoop fs rest).2) := by
  cases hrec : normalizeLoop fs rest with
  | mk a b =>
    cases hn : normMsg fs m with
    | error e => simp [normalizeLoop, hn]
    | ok m' => simp [normalizeLoop, hn, hrec]

/-- Anatomy of an accepted message: the input passed the role and content
checks, the output still passes them, and the output relates to the input by
`normRel`. -/
theorem normMsg_ok (fs : String → Option (List Nat)) (m m' : Message)
    (h : normMsg fs m = .ok m') :
    validRC m = true ∧ validRC m' = true ∧ normRel fs m m' := by
  unfold normMsg at h
  cases hr : truthyStr m.role with
  | none =>
    simp only [hr] at h
    exact Except.noConfusion h
  | some r =>
    simp only [hr] at h
    by_cases hmem : r ∈ roles
    · rw [if_pos hmem] at h
      cases hc : truthyStr m.content with
      | none =>
        simp only [hc] at h
        exact Except.noConfusion h
      | some c =>
        simp only [hc] at h
        cases hi : truthyList m.images with
        | none =>
          simp only [hi] at h
          injection h with h'
          subst h'
          refine ⟨by simp [validRC, hr, hc, hmem], by simp [validRC, hr, hc, hmem],
            rfl, rfl, fun _ => rfl, fun imgs hih => by simp [hi] at hih⟩
        | some imgs =>
          simp only [hi] at h
          cases he : imgs.mapM (encodeImage fs) with
          | ok enc =>
            simp only [he] at h
            injection h with h'
            subst h'
            refine ⟨by simp [validRC, hr, hc, hmem], by simp [validRC, hr, hc, hmem],
              rfl, rfl, fun hnone => by simp [hi] at hnone, fun imgs' hih => ?_⟩
            rw [hi] at hih
            injection hih with hih'
            subst hih'
            exact ⟨enc, he, rfl⟩
          | error e =>
            simp only [he] at h
            exact Except.noConfusion h
    · rw [if_neg hmem] at h
      exact Except.noConfusion h

/-- A message failing the role or content checks makes the loop raise. -/
theorem normMsg_invalid (fs : String → Option (List Nat)) (m : Message)
    (h : validRC m = false) : ∃ e, normMsg fs m = .error e := by
  unfold normMsg
  cases hr : truthyStr m.role with
  | none => exact ⟨_, rfl⟩
  | some r =>
    simp only []
    by_cases hmem : r ∈ roles
    · rw [if_pos hmem]
      cases hc : truthyStr m.content with
      | none => exact ⟨_, rfl⟩
      | some c =>
        exfalso
        simp [validRC, hr, hc, hmem] at h
    · rw [if_neg hmem]
      exact ⟨_, rfl⟩

/-- If some supplied message fails the checks, the loop stops with an error. -/
theorem normalizeLoop_has_err (fs : String → Option (List Nat)) (l : List Message)
    (h : ∃ m ∈ l, validRC m = false) : (normalizeLoop fs l).2.isSome = true := by
  induction l with
  | nil => simp at h
  | cons m rest ih =>
    rw [normalizeLoop_cons]
    cases hn : normMsg fs m with
    | error e => simp
    | ok m' =>
      simp only [Option.isSome]
      rcases h with ⟨mb, hmem, hbad⟩
      rcases List.mem_cons.mp hmem with heq | hmem'
      · subst heq
        rw [(normMsg_ok fs mb m' hn).1] at hbad
        cases hbad
      · have := ih ⟨mb, hmem', hbad⟩
        simpa [Option.isSome] using this

/-- Every message in a fully accepted list passes the checks. -/
theorem normalizeLoop_sent_valid (fs : String → Option (List Nat))
    (l l' : List Message) (h : normalizeLoop fs l = (l', none)) :
    ∀ m' ∈ l', validRC m' = true := by
  induction l generalizing l' with
  | nil =>
    unfold normalizeLoop at h
    injection h with h1 h2
    subst h1
    intro x hx
    cases hx
  | cons m rest ih =>
    rw [normalizeLoop_cons] at h
    cases hn : normMsg fs m with
    | error e => rw [hn] at h; simp at h
    | ok m' =>
      rw [hn] at h
      cases hrec : normalizeLoop fs rest with
      | mk a b =>
        rw [hrec] at h
        injection h with h1 h2
        subst h1
        subst h2
        intro x hx
        rcases List.mem_cons.mp hx with rfl | hx'
        · exact (normMsg_ok fs m x hn).2.1
        · exact ih a (by rw [hrec]) x hx'

/-- A fully accepted list relates pointwise to its normalization. -/
theorem normalizeLoop_rel (fs : String → Option (List Nat)) (l l' : List Message)
    (h : normalizeLoop fs l = (l', none)) : List.Forall₂ (normRel fs) l l' := by
  induction l generalizing l' with
  | nil =>
    unfold normalizeLoop at h
    injection h with h1 h2
    subst h1
    exact List.Forall₂.nil
  | cons m rest ih =>
    rw [normalizeLoop_cons] at h
    cases hn : normMsg fs m with
    | error e => rw [hn] at h; simp at h
    | ok m' =>
      rw [hn] at h
      cases hrec : normalizeLoop fs rest with
      | mk a b =>
        rw [hrec] at h
        injection h with h1 h2
        subst h1
        subst h2
        exact List.Forall₂.cons (normMsg_ok fs m m' hn).2.2 (ih a (by rw [hrec]))

/-- Claim C6: with a non-empty model name, if any supplied message lacks a
recognized role or truthy content the call fails before any request is issued
(zero requests); and whenever a request is sent, every transmitted message has
a recognized role and non-empty content. -/
theorem chat_validates_messages (fs : String → Option (List Nat)) (model : String)
    (msgs : List Message) (hm : model ≠ "") :
    ((∃ m ∈ msgs, validRC m = false) →
      (chat fs model msgs).requests = 0 ∧
      ∃ e, (chat fs model msgs).outcome = .error e) ∧
    (∀ sent, (chat fs model msgs).sent = some sent →
      ∀ m ∈ sent, validRC m = true) := by
  cases hnl : normalizeLoop fs msgs with
  | mk l' oe =>
    cases oe with
    | some e =>
      refine ⟨fun _ => ⟨by simp [chat, hm, hnl], e, by simp [chat, hm, hnl]⟩, ?_⟩
      intro sent hsent
      simp [chat, hm, hnl] at hsent
    | none =>
      refine ⟨fun hbad => ?_, fun sent hsent => ?_⟩
      · exfalso
        have := normalizeLoop_has_err fs msgs hbad
        rw [hnl] at this
        simp at this
      · simp only [chat, if_neg hm, hnl] at hsent
        injection hsent with hsent'
        subst hsent'
        exact normalizeLoop_sent_valid fs msgs _ hnl

/-- Concrete run for claim C6: a second message with role `bot` is rejected
with zero requests issued. -/
theorem chat_validates_messages_case :
    (chat fsEmpty "llama2"
      [⟨some "user", some "hi", none⟩, ⟨some "bot", some "x", none⟩]).requests = 0 ∧
    ∃ e, (chat fsEmpty "llama2"
      [⟨some "user", some "hi", none⟩, ⟨some "bot", some "x", none⟩]).outcome = .error e :=
  (chat_validates_messages fsEmpty "llama2"
    [⟨some "user", some "hi", none⟩, ⟨some "bot", some "x", none⟩] (by decide)).1
    ⟨⟨some "bot", some "x", none⟩, by decide, by decide⟩

/-- Claim C9 counterexample: a successful `chat` call does NOT leave the
caller-supplied message objects unchanged — the `images` field of `msgImg` is
overwritten in place with the base64 string of its bytes. -/
theorem chat_mutates_messages :
    (chat fsEmpty "m" [msgImg]).outcome = .ok () ∧
    (chat fsEmpty "m" [msgImg]).messagesAfter ≠ [msgImg] :=
  ⟨rfl, by decide⟩

/-- Claim C9 (amended): on a successful `chat` call, each caller-supplied
message keeps its role and content; a message without truthy images is left
entirely unchanged; a message with a non-empty image list has exactly its
`images` field replaced in place by the base64 encodings of its images. -/
theorem chat_normalization_effect (fs : String → Option (List Nat)) (model : String)
    (msgs : List Message) (h : (chat fs model msgs).outcome = .ok ()) :
    List.Forall₂ (normRel fs) msgs (chat fs model msgs).messagesAfter := by
  by_cases hm : model = ""
  · subst hm
    simp [chat] at h
  · cases hnl : normalizeLoop fs msgs with
    | mk l' oe =>
      cases oe with
      | some e => exact absurd h (by simp [chat, hm, hnl])
      | none =>
        have := normalizeLoop_rel fs msgs l' hnl
        simpa [chat, hm, hnl] using this

/-- Concrete run for claim C9 (amended), on a message carrying a raw image. -/
theorem chat_normalization_effect_case :
    List.Forall₂ (normRel fsEmpty) [msgImg] (chat fsEmpty "m" [msgImg]).messagesAfter :=
  chat_normalization_effect fsEmpty "m" [msgImg] rfl

end Ollama

namespace Ollama

/-- Claim C4 fails on the code: in `ollama/model.bin`-style multi-line input the
line iterator keeps the trailing newline in `args`, so the checked path is
`models/model.bin\n`, which never exists; the directive is not rewritten even
though the (newline-stripped) remainder resolves to an existing file, and the
output line is not left unchanged either — `print` appends a second newline. -/
theorem parse_modelfile_newline_bug :
    fsLookup fsModel (resolveArg home0 base0 "./model.bin") = some [1, 2, 3] ∧
    parseModelfile fsModel home0 base0 "FROM ./model.bin\n" = "FROM ./model.bin\n\n" ∧
    parseModelfile fsModel home0 base0 "FROM ./model.bin\n" ≠
      "FROM @" ++ createBlobDigest [1, 2, 3] ++ "\n" ∧
    parseModelfile fsModel home0 base0 "FROM ./model.bin\n" ≠ "FROM ./model.bin\n" := by
  refine ⟨by decide, by decide, ?_, by decide⟩
  decide

/-- Claim C5 fails on the code: a single non-directive input line comes out as
two output lines (the line, then a blank line), because the kept newline of the
input line is followed by the newline `print` adds; so lines are neither
one-to-one nor verbatim. -/
theorem parse_modelfile_line_mangling :
    parseModelfile [] home0 base0 "PARAMETER temperature 0.7\n" =
      "PARAMETER temperature 0.7\n\n" ∧
    (splitLinesKeep "PARAMETER temperature 0.7\n").length = 1 ∧
    (splitLinesKeep
      (parseModelfile [] home0 base0 "PARAMETER temperature 0.7\n")).length = 2 ∧
    parseModelfile [] home0 base0 "PARAMETER temperature 0.7\n" ≠
      "PARAMETER temperature 0.7\n" := by
  decide

end Ollama
